import Mathlib

/-!
Verification development for the freemarker.go template parser
(package `parse`: `lex.go`, `node.go`, `parse.go`).

Strings are modelled as `List Char`; byte positions coincide with
character positions for the ASCII inputs exercised here.  The scanner
(`lex.go`) is embedded as a step function over an explicit lexer state,
driven by a fuel-indexed runner (the Go original runs the state machine
in a goroutine feeding a channel; the emitted item sequence is the same).
The parser (`parse.go`) is embedded as fuel-indexed functions over a
token-stream state; the Go original signals errors with `panic` caught
by `recover`, which re-raises runtime errors — embedded as an `Except`
with two error constructors, `parseError` (returned to the caller) and
`crash` (a runtime panic that `recover` re-raises, killing the process).
-/

namespace FM

/-- The single-quote character, written via its code point. -/
def sq : Char := Char.ofNat 39

/-- Go slice `s[a:b]`. -/
def slice (s : List Char) (a b : Nat) : List Char := (s.take b).drop a

/-- Go `strings.Index`: index of the first occurrence of `pat` in `s`,
`none` when absent (Go returns -1). -/
def strIndex : List Char → List Char → Option Nat
  | [], pat => if pat.isEmpty then some 0 else none
  | c :: t, pat =>
    if pat.isPrefixOf (c :: t) then some 0
    else (strIndex t pat).map (fun i => i + 1)

/-- Length of the longest prefix of `s` whose characters satisfy `p`. -/
def countWhile (p : Char → Bool) : List Char → Nat
  | [] => 0
  | c :: t => if p c then countWhile p t + 1 else 0

/-- Escape one character the way Go `%q` does (ASCII printable subset;
the inputs in this development contain no other characters). -/
def quoteChar (c : Char) : List Char :=
  if c = '"' then ['\\', '"']
  else if c = '\\' then ['\\', '\\']
  else if c = '\n' then ['\\', 'n']
  else if c = '\t' then ['\\', 't']
  else if c = '\r' then ['\\', 'r']
  else [c]

/-- Go `%q` of a string: double-quoted with escapes. -/
def goQuote (s : List Char) : List Char := '"' :: (s.map quoteChar).flatten ++ ['"']

/-- Decimal digits of a natural number. -/
def natChars (n : Nat) : List Char := Nat.toDigits 10 n

/-- Upper-case hexadecimal digits of a natural number. -/
def hexUpper (n : Nat) : List Char := (Nat.toDigits 16 n).map Char.toUpper

/-- Left-pad with zeroes to width 4 (Go `%04X`). -/
def pad4 (l : List Char) : List Char := List.replicate (4 - l.length) '0' ++ l

/-- Go `%#U` of a rune: `U+XXXX 'c'`.  The `none` case stands for the
scanner's `eof` sentinel (never formatted on any path exercised here). -/
def fmtRune : Option Char → List Char
  | some c => ('U' :: '+' :: pad4 (hexUpper c.toNat)) ++ (' ' :: sq :: c :: [sq])
  | none => ['U', '+', '-', '1']

/-- Token kinds, mirroring `itemType` in lex.go. -/
inductive ItemType where
  | error | bool | eof | identifier | text | number | charConstant | stringConstant | space
  | add | minus | multiply | divide | less | lessEq | greater | greaterEq | eq | neq | dot
  | lowestPrecOpt
  | leftInterpolation | rightInterpolation | startDirective | closeDirective | endDirective
  | leftParen | rightParen
  | directiveInclude | directiveMacro | directiveIf | directiveElseif | directiveElse
  | directiveList | asKeyword
deriving DecidableEq, Repr

/-- The numeric value of each `itemType` constant per the `iota` block in
lex.go (the unnamed range markers `_itemOperatorBeg` = 9,
`_itemOperatorEnd` = 22, `_itemDirectiveBeg` = 30, `_itemDirectiveEnd` = 38
are skipped). -/
def ItemType.code : ItemType → Nat
  | .error => 0 | .bool => 1 | .eof => 2 | .identifier => 3 | .text => 4
  | .number => 5 | .charConstant => 6 | .stringConstant => 7 | .space => 8
  | .add => 10 | .minus => 11 | .multiply => 12 | .divide => 13
  | .less => 14 | .lessEq => 15 | .greater => 16 | .greaterEq => 17
  | .eq => 18 | .neq => 19 | .dot => 20 | .lowestPrecOpt => 21
  | .leftInterpolation => 23 | .rightInterpolation => 24 | .startDirective => 25
  | .closeDirective => 26 | .endDirective => 27 | .leftParen => 28 | .rightParen => 29
  | .directiveInclude => 31 | .directiveMacro => 32 | .directiveIf => 33
  | .directiveElseif => 34 | .directiveElse => 35 | .directiveList => 36 | .asKeyword => 37

/-- Operator precedence of a token kind (`item.precedence` in lex.go). -/
def ItemType.precedence : ItemType → Nat
  | .eq | .neq | .less | .lessEq => 3
  | .add | .minus => 4
  | .multiply | .divide => 5
  | .dot => 6
  | _ => 0

/-- The `itemName` pretty-printing table in lex.go. -/
def itemNameTable : ItemType → Option (List Char)
  | .error => some ("error".toList)
  | .bool => some ("bool".toList)
  | .eof => some ("EOF".toList)
  | .identifier => some ("identifier".toList)
  | .eq => some ("==".toList)
  | .neq => some ("!=".toList)
  | .add => some ("+".toList)
  | .minus => some ("-".toList)
  | .multiply => some ("*".toList)
  | .divide => some ("/".toList)
  | .less => some ("<".toList)
  | .lessEq => some ("<=".toList)
  | .dot => some (".".toList)
  | .charConstant => some ("char".toList)
  | .stringConstant => some ("string".toList)
  | .number => some ("number".toList)
  | .leftParen => some ("(".toList)
  | .rightParen => some (")".toList)
  | .space => some ("space".toList)
  | .text => some ("text".toList)
  | .directiveIf => some ("if".toList)
  | .directiveElseif => some ("elseif".toList)
  | .directiveElse => some ("else".toList)
  | .directiveList => some ("list".toList)
  | _ => none

/-- `itemType.String`: table entry, or `item%d` for kinds missing from it. -/
def ItemType.typeStr (t : ItemType) : List Char :=
  match itemNameTable t with
  | some s => s
  | none => ("item".toList) ++ natChars t.code

/-- A scanned token (`item` in lex.go). -/
structure Item where
  typ : ItemType
  pos : Nat
  val : List Char
  line : Nat
deriving DecidableEq, Repr

/-- `item.String`: EOF and errors specially, directive kinds as `<v>`,
operator kinds as `[v]`, long values truncated-quoted, else quoted. -/
def itemString (i : Item) : List Char :=
  if i.typ = .eof then ("EOF".toList)
  else if i.typ = .error then i.val
  else if 30 < i.typ.code ∧ i.typ.code < 38 then '<' :: i.val ++ ['>']
  else if 9 < i.typ.code ∧ i.typ.code < 22 then '[' :: i.val ++ [']']
  else if 10 < i.val.length then goQuote (i.val.take 10) ++ ("...".toList)
  else goQuote i.val

/-- The `directives` keyword table in lex.go.  Every entry lies inside the
directive range, so the range test made by `lexIdentifier` succeeds exactly
when the lookup succeeds. -/
def directiveKeyword (w : List Char) : Option ItemType :=
  if w = ("include".toList) then some .directiveInclude
  else if w = ("macro".toList) then some .directiveMacro
  else if w = ("if".toList) then some .directiveIf
  else if w = ("elseif".toList) then some .directiveElseif
  else if w = ("else".toList) then some .directiveElse
  else if w = ("list".toList) then some .directiveList
  else if w = ("as".toList) then some .asKeyword
  else none

/-- The `comparators` keyword table in lex.go (both entries lie inside the
operator range tested by `lexIdentifier`). -/
def comparatorKeyword (w : List Char) : Option ItemType :=
  if w = ("gt".toList) then some .greater
  else if w = ("gte".toList) then some .greaterEq
  else none

/-- `isSpace` in lex.go. -/
def isSpaceC (c : Char) : Bool := c = ' ' || c = '\t'

/-- `isEndOfLine` in lex.go. -/
def isEndOfLineC (c : Char) : Bool := c = '\r' || c = '\n'

/-- `isAlphaNumeric` in lex.go (ASCII fragment of `unicode.IsLetter` /
`unicode.IsDigit`; all inputs in this development are ASCII). -/
def isAlphaNumericC (c : Char) : Bool := c = '_' || c.isAlpha || c.isDigit

/-- Scanner state (fields of `lexer` in lex.go that the state functions
read or write; the items channel is replaced by returned item lists). -/
structure LexSt where
  input : List Char
  pos : Nat
  start : Nat
  width : Nat
  line : Nat
  parenDepth : Int
deriving Repr

/-- `lexer.next`: consume one rune (width 0 at end of input). -/
def lnext (l : LexSt) : Option Char × LexSt :=
  match (l.input.drop l.pos).head? with
  | none => (none, { l with width := 0 })
  | some c =>
    (some c, { l with width := 1, pos := l.pos + 1,
                      line := if c = '\n' then l.line + 1 else l.line })

/-- `lexer.backup`: step back one rune, correcting the newline count. -/
def lbackup (l : LexSt) : LexSt :=
  let l' : LexSt := { l with pos := l.pos - l.width }
  if l.width = 1 ∧ (l'.input.drop l'.pos).head? = some '\n' then
    { l' with line := l'.line - 1 }
  else l'

/-- `lexer.peek`. -/
def lpeek (l : LexSt) : Option Char × LexSt :=
  let (c, l') := lnext l
  (c, lbackup l')

/-- `lexer.emit`: build the item for `input[start:pos]` and advance `start`. -/
def lemit (t : ItemType) (l : LexSt) : Item × LexSt :=
  (⟨t, l.start, slice l.input l.start l.pos, l.line⟩, { l with start := l.pos })

/-- `lexer.ignore`. -/
def lignore (l : LexSt) : LexSt := { l with start := l.pos }

/-- `lexer.accept`: consume the next rune if it belongs to `valid`. -/
def laccept (valid : List Char) (l : LexSt) : Bool × LexSt :=
  match lnext l with
  | (some c, l') => if valid.contains c then (true, l') else (false, lbackup l')
  | (none, l') => (false, lbackup l')

/-- `lexer.acceptRun`: consume a maximal run of runes from `valid`.  The Go
loop calls `next` until a rune outside `valid` (or eof) appears and then
backs up once; the net effect is: advance past the run, add the newlines
inside the run to the line count (the failing rune's newline bump is undone
by the backup), and leave `width` = 1 when the run stopped on a rune and 0
when it stopped at end of input. -/
def lacceptRun (valid : List Char) (l : LexSt) : LexSt :=
  let run := (l.input.drop l.pos).takeWhile (fun c => valid.contains c)
  { l with pos := l.pos + run.length,
           line := l.line + run.count '\n',
           width := if l.pos + run.length < l.input.length then 1 else 0 }

/-- Names for the scanner's state functions (`stateFn` values in lex.go). -/
inductive LexState where
  | text | comment | interp | directive | expr | space | ident | comparator
  | charLit | strLit | numberS
deriving DecidableEq, Repr

/-- One scanner step: items emitted, next state (`none` = the state
function returned `nil`, terminating the scan), updated state. -/
abbrev LexStep := List Item × Option LexState × LexSt

/-- `lexer.errorf`: emit an error item and terminate the scan. -/
def lerror (l : LexSt) (msg : List Char) : LexStep :=
  ([⟨.error, l.start, msg, l.line⟩], none, l)

/-- The interpolation-open marker `${`. -/
def leftInterpolation : List Char := ['$', '\x7b']

/-- The interpolation-close marker `}`. -/
def rightInterpolation : List Char := ['\x7d']

/-- The comment-open marker `<#--`. -/
def leftComment : List Char := ['<', '#', '-', '-']

/-- The comment-close marker `-->`. -/
def rightComment : List Char := ['-', '-', '>']

/-- The directive-open marker `<#`. -/
def startDirective : List Char := ['<', '#']

/-- The directive-close-open marker `</#`. -/
def endDirective : List Char := ['<', '/', '#']

/-- The branch shared by the four marker hits in `lexText`: advance to the
found index, emit the preceding run as a Text item when non-empty, and
enter the given state. -/
def lexJump (l : LexSt) (x : Nat) (st : LexState) : LexStep :=
  let l : LexSt := { l with pos := l.pos + x }
  if l.start < l.pos then
    let (it, l) := lemit .text l
    ([it], some st, l)
  else ([], some st, l)

/-- `lexText`: try the four markers in the source's fixed order
(`${`, then `<#--`, then `<#`, then `</#`), each with `strings.Index`
over the remaining input; the first marker found anywhere wins.  With no
marker present, jump to end of input, emit trailing Text and EOF. -/
def lexText (l0 : LexSt) : LexStep :=
  let l : LexSt := { l0 with width := 0 }
  match strIndex (l.input.drop l.pos) leftInterpolation with
  | some x => lexJump l x .interp
  | none =>
  match strIndex (l.input.drop l.pos) leftComment with
  | some x => lexJump l x .comment
  | none =>
  match strIndex (l.input.drop l.pos) startDirective with
  | some x => lexJump l x .directive
  | none =>
  match strIndex (l.input.drop l.pos) endDirective with
  | some x => lexJump l x .directive
  | none =>
    let l : LexSt := { l with pos := l.input.length }
    if l.start < l.pos then
      let (it, l) := lemit .text l
      let (ie, l) := lemit .eof l
      ([it, ie], none, l)
    else
      let (ie, l) := lemit .eof l
      ([ie], none, l)

/-- `lexInterpolation`: consume `${`, emit it, enter the expression state. -/
def lexInterpolation (l : LexSt) : LexStep :=
  let l : LexSt := { l with pos := l.pos + leftInterpolation.length }
  let (it, l) := lemit .leftInterpolation l
  ([it], some .expr, l)

/-- `lexComment`: skip `<#-- ... -->` entirely (no item), or error when
unterminated. -/
def lexComment (l : LexSt) : LexStep :=
  let l : LexSt := { l with pos := l.pos + leftComment.length }
  match strIndex (l.input.drop l.pos) rightComment with
  | none => lerror l ("unclosed comment".toList)
  | some i =>
    let l : LexSt := { l with pos := l.pos + i + rightComment.length }
    ([], some .text, lignore l)

/-- `lexDirective`: consume a leading `<#` and/or `</#` (two sequential,
non-exclusive prefix tests in the source), then enter the expression state. -/
def lexDirective (l : LexSt) : LexStep :=
  let (items1, l) :=
    if startDirective.isPrefixOf (l.input.drop l.pos) then
      let l : LexSt := { l with pos := l.pos + startDirective.length }
      let (it, l) := lemit .startDirective l
      ([it], l)
    else ([], l)
  let (items2, l) :=
    if endDirective.isPrefixOf (l.input.drop l.pos) then
      let l : LexSt := { l with pos := l.pos + endDirective.length }
      let (it, l) := lemit .endDirective l
      ([it], l)
    else ([], l)
  (items1 ++ items2, some .expr, l)

/-- `lexExpression`: dispatch on the next rune, as in the source's switch.
Note that `+ - * /` have no branch here, so those operator kinds are never
emitted by the scanner: they fall into the final "unrecognized character"
error. -/
def lexExpression (l : LexSt) : LexStep :=
  match lnext l with
  | (none, l) => lerror l ("unclosed directive".toList)
  | (some r, l) =>
    if isEndOfLineC r then lerror l ("unclosed directive".toList)
    else if isSpaceC r then ([], some .space, l)
    else if r = '.' then
      -- look-ahead: ".field" versus a number starting with '.'
      if l.pos < l.input.length ∧
          ((l.input.drop l.pos).headD ' ' < '0' ∨ '9' < (l.input.drop l.pos).headD ' ') then
        let (it, l) := lemit .dot l
        ([it], some .directive, l)
      else ([], some .numberS, lbackup l)
    else if '0' ≤ r ∧ r ≤ '9' then ([], some .numberS, lbackup l)
    else if r = '"' then ([], some .strLit, l)
    else if r = sq then ([], some .charLit, l)
    else if r = '!' ∨ r = '=' ∨ r = '<' then ([], some .comparator, lbackup l)
    else if isAlphaNumericC r then ([], some .ident, lbackup l)
    else if r = '(' then
      let (it, l) := lemit .leftParen l
      ([it], some .expr, { l with parenDepth := l.parenDepth + 1 })
    else if r = ')' then
      let (it, l) := lemit .rightParen l
      let l : LexSt := { l with parenDepth := l.parenDepth - 1 }
      if l.parenDepth < 0 then
        ([it, ⟨.error, l.start, ("unexpected right paren ".toList) ++ fmtRune (some r), l.line⟩],
         none, l)
      else ([it], some .expr, l)
    else if r = '>' then
      let (it, l) := lemit .closeDirective l
      ([it], some .text, l)
    else if r = '\x7d' then
      let (it, l) := lemit .rightInterpolation l
      ([it], some .text, l)
    else lerror l (("unrecognized character in action: ".toList) ++ fmtRune (some r))

/-- `lexSpace`: absorb the space run via repeated peek/next (one space was
consumed by `lexExpression` already), emit one Space item.  Spaces are never
newlines, so the line count is unchanged; the final failing peek leaves
`width` = 1 on a rune and 0 at end of input. -/
def lexSpace (l : LexSt) : LexStep :=
  let n := countWhile isSpaceC (l.input.drop l.pos)
  let l : LexSt := { l with pos := l.pos + n,
                            width := if l.pos + n < l.input.length then 1 else 0 }
  let (it, l) := lemit .space l
  ([it], some .directive, l)

/-- `lexer.atTerminator`. -/
def atTerminator (l : LexSt) : Bool :=
  match (l.input.drop l.pos).head? with
  | none => true
  | some r =>
    isSpaceC r || isEndOfLineC r || r = '.' || r = ',' || r = '|' || r = ':' ||
    r = ')' || r = '(' || r = '>' || r = '\x7d'

/-- `lexIdentifier`: absorb an alphanumeric run, require a terminator, then
classify the word against the keyword tables, `true`/`false`, or plain
identifier. -/
def lexIdentifier (l : LexSt) : LexStep :=
  let n := countWhile isAlphaNumericC (l.input.drop l.pos)
  let l : LexSt := { l with pos := l.pos + n,
                            width := if l.pos + n < l.input.length then 1 else 0 }
  let word := slice l.input l.start l.pos
  if atTerminator l then
    let t : ItemType :=
      match directiveKeyword word with
      | some d => d
      | none =>
        match comparatorKeyword word with
        | some c => c
        | none =>
          if word = ("true".toList) ∨ word = ("false".toList) then .bool else .identifier
    let (it, l) := lemit t l
    ([it], some .directive, l)
  else lerror l (("bad character ".toList) ++ fmtRune ((l.input.drop l.pos).head?))

/-- `lexComparator`: one of `! = <` is pending; peek must show `=` or a
space; `==`, `!=`, `<`, `<=` are emitted, while a bare `=` or `!` falls out
of the switch emitting nothing. -/
def lexComparator (l : LexSt) : LexStep :=
  match lnext l with
  | (none, l) => lerror l (("unexpected comparator ".toList) ++ fmtRune none)
  | (some cs, l) =>
    let (r?, l) := lpeek l
    match r? with
    | none => lerror l (("unexpected comparator ".toList) ++ fmtRune none)
    | some r =>
      if r ≠ '=' ∧ r ≠ ' ' then
        lerror l (("unexpected comparator ".toList) ++ fmtRune (some r))
      else
        let (comp, l) :=
          if r = '=' then
            match lnext l with
            | (some c2, l) => ([cs, c2], l)
            | (none, l) => ([cs], l)
          else ([cs], l)
        if comp = ['=', '='] then
          let (it, l) := lemit .eq l
          ([it], some .directive, l)
        else if comp = ['!', '='] then
          let (it, l) := lemit .neq l
          ([it], some .directive, l)
        else if comp = ['<'] then
          let (it, l) := lemit .less l
          ([it], some .directive, l)
        else if comp = ['<', '='] then
          let (it, l) := lemit .lessEq l
          ([it], some .directive, l)
        else ([], some .directive, l)

/-- Shared scan loop of `lexChar` and `lexString`: number of characters up
to and including the closing quote, `none` when the literal is unterminated
(end of input or a bare newline, also directly after a backslash). -/
def scanQuoted (quote : Char) : List Char → Option Nat
  | [] => none
  | c :: rest =>
    if c = '\\' then
      match rest with
      | [] => none
      | d :: rest' => if d = '\n' then none else (scanQuoted quote rest').map (fun n => n + 2)
    else if c = '\n' then none
    else if c = quote then some 1
    else (scanQuoted quote rest).map (fun n => n + 1)

/-- `lexChar` (the opening quote is already consumed).  The line field of
the error item is taken before the scan; no newline is consumed on the
success path. -/
def lexChar (l : LexSt) : LexStep :=
  match scanQuoted sq (l.input.drop l.pos) with
  | none => lerror l ("unterminated character constant".toList)
  | some n =>
    let l : LexSt := { l with pos := l.pos + n, width := 1 }
    let (it, l) := lemit .charConstant l
    ([it], some .directive, l)

/-- `lexString` (the source reuses the character-constant error message). -/
def lexString (l : LexSt) : LexStep :=
  match scanQuoted '"' (l.input.drop l.pos) with
  | none => lerror l ("unterminated character constant".toList)
  | some n =>
    let l : LexSt := { l with pos := l.pos + n, width := 1 }
    let (it, l) := lemit .stringConstant l
    ([it], some .directive, l)

/-- Decimal digit alphabet. -/
def decDigits : List Char := ['0', '1', '2', '3', '4', '5', '6', '7', '8', '9']

/-- Hexadecimal digit alphabet. -/
def hexDigits : List Char :=
  decDigits ++ ['a', 'b', 'c', 'd', 'e', 'f', 'A', 'B', 'C', 'D', 'E', 'F']

/-- `lexer.scanNumber`. -/
def scanNumber (l : LexSt) : Bool × LexSt :=
  let (_, l) := laccept ['+', '-'] l
  let (a0, l) := laccept ['0'] l
  let (ax, l) := if a0 then laccept ['x', 'X'] l else (false, l)
  let digits := if a0 ∧ ax then hexDigits else decDigits
  let l := lacceptRun digits l
  let (ad, l) := laccept ['.'] l
  let l := if ad then lacceptRun digits l else l
  let (ae, l) := laccept ['e', 'E'] l
  let l :=
    if ae then
      let (_, l) := laccept ['+', '-'] l
      lacceptRun decDigits l
    else l
  let (_, l) := laccept ['i'] l
  match lpeek l with
  | (some c, l) => if isAlphaNumericC c then (false, (lnext l).2) else (true, l)
  | (none, l) => (true, l)

/-- `lexNumber`.  On a trailing sign the source re-scans expecting a
complex literal; its emit is commented out, so a well-formed complex
literal produces no item at all and leaves `start` behind. -/
def lexNumber (l : LexSt) : LexStep :=
  match scanNumber l with
  | (false, l) =>
    lerror l (("bad number syntax: ".toList) ++ goQuote (slice l.input l.start l.pos))
  | (true, l) =>
    match lpeek l with
    | (some s, l) =>
      if s = '+' ∨ s = '-' then
        match scanNumber l with
        | (false, l) =>
          lerror l (("bad number syntax: ".toList) ++ goQuote (slice l.input l.start l.pos))
        | (true, l) =>
          if slice l.input (l.pos - 1) l.pos = ['i'] then
            ([], some .directive, l)
          else
            lerror l (("bad number syntax: ".toList) ++ goQuote (slice l.input l.start l.pos))
      else
        let (it, l) := lemit .number l
        ([it], some .directive, l)
    | (none, l) =>
      let (it, l) := lemit .number l
      ([it], some .directive, l)

/-- Dispatch table of the state machine in `lexer.run`. -/
def stateStep : LexState → LexSt → LexStep
  | .text, l => lexText l
  | .comment, l => lexComment l
  | .interp, l => lexInterpolation l
  | .directive, l => lexDirective l
  | .expr, l => lexExpression l
  | .space, l => lexSpace l
  | .ident, l => lexIdentifier l
  | .comparator, l => lexComparator l
  | .charLit, l => lexChar l
  | .strLit, l => lexString l
  | .numberS, l => lexNumber l

/-- Fuel-indexed driver for the state machine (the Go loop in `lexer.run`).
Every scanner cycle either terminates or consumes input within a bounded
number of steps, so the fuel below never runs out on the inputs used. -/
def lexRun : Nat → LexState → LexSt → List Item
  | 0, _, _ => []
  | fuel + 1, st, l =>
    match stateStep st l with
    | (items, none, _) => items
    | (items, some st', l') => items ++ lexRun fuel st' l'

/-- Fuel bound for a full scan. -/
def lexFuel (input : List Char) : Nat := 8 * input.length + 32

/-- `lex` + draining the channel: the complete item sequence for an input. -/
def lexAll (input : List Char) : List Item :=
  lexRun (lexFuel input) .text ⟨input, 0, 0, 0, 1, 0⟩

/-! ## AST node model (node.go)

One inductive covers the node variants this parser can construct
(`ChainNode`, `VariableNode`, `NilNode` have factory methods but no
construction site in the parser).  `End`/`Else` are the internal marker
variants. -/

inductive Node where
  | content (pos : Nat) (nodes : List Node)
  | textN (pos : Nat) (txt : List Char)
  | expr (pos : Nat) (op : ItemType) (nodes : List Node)
  | ident (pos : Nat) (name : List Char)
  | boolN (pos : Nat) (b : Bool)
  | number (pos : Nat) (txt : List Char)
  | strN (pos : Nat) (txt : List Char)
  | endN (pos : Nat) (identifier : List Char)
  | elseN (pos : Nat)
  | ifN (pos : Nat) (cond : Node) (body : Node) (alt : Option Node)
  | listN (pos : Nat) (cond : Node) (body : Node) (alt : Option Node)
deriving Repr

/-- `Node.Position`. -/
def nodePos : Node → Nat
  | .content p _ => p
  | .textN p _ => p
  | .expr p _ _ => p
  | .ident p _ => p
  | .boolN p _ => p
  | .number p _ => p
  | .strN p _ => p
  | .endN p _ => p
  | .elseN p => p
  | .ifN p _ _ _ => p
  | .listN p _ _ _ => p

mutual

/-- `Node.String` for each variant; `q` selects the diagnostic text format
(`textFormat = "%q"`, set by the tests) versus the default `"%s"`, which
only affects `TextNode.String`. -/
def nodeString (q : Bool) : Node → List Char
  | .content _ ns => nodesString q ns
  | .textN _ t => if q then goQuote t else t
  | .expr _ op ns => exprString q op true ns
  | .ident _ nm => nm
  | .boolN _ b => if b then ("true".toList) else ("false".toList)
  | .number _ t => t
  | .strN _ t => t
  | .endN _ i => ("</#".toList) ++ i ++ ['>']
  | .elseN _ => '\x7b' :: '\x7b' :: ("else".toList) ++ ['\x7d', '\x7d']
  | .ifN _ c b _ =>
    ("<#if ".toList) ++ nodeString q c ++ ['>'] ++ nodeString q b ++ ("</#if>".toList)
  | .listN _ c b _ =>
    ("<#list ".toList) ++ nodeString q c ++ ['>'] ++ nodeString q b ++ ("</#list>".toList)

/-- `ContentNode.String`: concatenation of the children. -/
def nodesString (q : Bool) : List Node → List Char
  | [] => []
  | n :: ns => nodeString q n ++ nodesString q ns

/-- `ExpressionNode.String`: children joined by the operator's name, with
nested expression children parenthesized (an expression child's own
`String()` is its child list rendered with its own operator, inlined here
so the recursion is structural). -/
def exprString (q : Bool) (op : ItemType) : Bool → List Node → List Char
  | _, [] => []
  | first, .expr _ o m :: ns =>
    (if first then [] else op.typeStr) ++
      ('(' :: exprString q o true m ++ [')']) ++ exprString q op false ns
  | first, n :: ns =>
    (if first then [] else op.typeStr) ++ nodeString q n ++ exprString q op false ns

end

mutual

/-- `Node.Copy` for each variant (composite variants copy children
recursively; leaf variants copy scalar fields by value). -/
def copyNode : Node → Node
  | .content p ns => .content p (copyNodes ns)
  | .textN p t => .textN p t
  | .expr p op ns => .expr p op (copyNodes ns)
  | .ident p nm => .ident p nm
  | .boolN p b => .boolN p b
  | .number p t => .number p t
  | .strN p t => .strN p t
  | .endN p i => .endN p i
  | .elseN p => .elseN p
  | .ifN p c b a => .ifN p (copyNode c) (copyNode b) (copyOpt a)
  | .listN p c b a => .listN p (copyNode c) (copyNode b) (copyOpt a)

/-- Child-list copy (`CopyContent` / `CopyExpr` loops). -/
def copyNodes : List Node → List Node
  | [] => []
  | n :: ns => copyNode n :: copyNodes ns

/-- Nil-safe copy (`CopyContent` / `CopyExpr` accept a nil receiver). -/
def copyOpt : Option Node → Option Node
  | none => none
  | some n => some (copyNode n)

end

/-- The whitespace set trimmed by `bytes.TrimSpace` (ASCII fragment). -/
def isGoSpace (c : Char) : Bool :=
  c = ' ' || c = '\t' || c = '\n' || c = '\x0b' || c = '\x0c' || c = '\r'

/-- `bytes.TrimSpace`. -/
def trimSpace (s : List Char) : List Char :=
  ((s.dropWhile isGoSpace).reverse.dropWhile isGoSpace).reverse

mutual

/-- `IsEmptyTree` on a non-nil node.  The `IfNode` and `ListNode` switch
cases in the source have empty bodies, so control falls out of the switch
to the final `return false`; the default case panics with a string value
(embedded as the error constructor). -/
def isEmptyNode : Node → Except (List Char) Bool
  | .ifN _ _ _ _ => .ok false
  | .content _ ns => isEmptyNodes ns
  | .listN _ _ _ _ => .ok false
  | .textN _ t => .ok (decide (trimSpace t = []))
  | n => .error (("unknown node: ".toList) ++ nodeString false n)

/-- The loop over a Content node's children: false as soon as one child is
non-empty, propagating a panic from any child. -/
def isEmptyNodes : List Node → Except (List Char) Bool
  | [] => .ok true
  | n :: ns =>
    match isEmptyNode n with
    | .error m => .error m
    | .ok true => isEmptyNodes ns
    | .ok false => .ok false

end

/-- `IsEmptyTree` (a nil node is empty). -/
def IsEmptyTree : Option Node → Except (List Char) Bool
  | none => .ok true
  | some n => isEmptyNode n

/-- The fields of `Tree` that survive parsing (`Copy` discards the lexer,
lookahead buffer and tree-set references). -/
structure TreeM where
  name : List Char
  parseName : List Char
  root : Option Node
  text : List Char
deriving Repr

/-- `Tree.Copy`. -/
def treeCopy (t : TreeM) : TreeM := ⟨t.name, t.parseName, copyOpt t.root, t.text⟩

/-- `strings.LastIndex` for a single character. -/
def lastIdx (s : List Char) (c : Char) : Option Nat :=
  match s with
  | [] => none
  | a :: t =>
    match lastIdx t c with
    | some i => some (i + 1)
    | none => if a = c then some 0 else none

/-- `Tree.ErrorContext`.  In the source each node holds a back-reference to
its owning tree, whose `text` and `ParseName` feed this computation; nodes
created by the copy operations keep pointing at a tree carrying the same
two fields, so the owning tree is passed explicitly here. -/
def ErrorContext (t : TreeM) (q : Bool) (n : Node) : List Char × List Char :=
  let pos := nodePos n
  let text := t.text.take pos
  let byteNum :=
    match lastIdx text '\n' with
    | none => pos
    | some k => pos - (k + 1)
  let lineNum := 1 + text.count '\n'
  let ctx0 := nodeString q n
  let ctx := if 20 < ctx0.length then ctx0.take 20 ++ ("...".toList) else ctx0
  (t.parseName ++ [':'] ++ natChars lineNum ++ [':'] ++ natChars byteNum, ctx)

/-! ## Structural parser (parse.go) -/

/-- Parse-time failure: `parseError` is a panic raised by `Tree.errorf`,
recovered at the top of `Parse` and returned; `crash` is a runtime panic
(nil dereference, failed type assertion, or a non-error panic value),
which `Tree.recover` re-raises, killing the process. -/
inductive PErr where
  | parseError (msg : List Char)
  | crash (msg : List Char)
deriving DecidableEq, Repr

/-- Parser state: the remaining token stream, the most recent item read
from the scanner (`t.token[0]`, whose line feeds `errorf`), the template
name used in error prefixes, and the active text format. -/
structure PState where
  tokens : List Item
  tok0 : Item
  name : List Char
  quoted : Bool
deriving Repr

/-- Receiving from the scanner's closed channel yields the zero item
(whose type happens to be `itemError`). -/
def zeroItem : Item := ⟨.error, 0, [], 0⟩

/-- `Tree.next`. -/
def pNext (s : PState) : Item × PState :=
  match s.tokens with
  | [] => (zeroItem, { s with tok0 := zeroItem })
  | t :: rest => (t, { s with tokens := rest, tok0 := t })

/-- `Tree.backup` of the token just read (the only backup depth the parser
uses). -/
def pushTok (t : Item) (s : PState) : PState := { s with tokens := t :: s.tokens }

/-- `Tree.peek`. -/
def pPeek (s : PState) : Item × PState :=
  let (t, s) := pNext s
  (t, pushTok t s)

/-- `Tree.nextNonSpace` (the skip loop refactored via `dropWhile`; each
skipped space passed through `t.token[0]`, which ends at the returned
token). -/
def pNextNonSpace (s : PState) : Item × PState :=
  pNext { s with tokens := s.tokens.dropWhile (fun t => t.typ == .space) }

/-- `Tree.peekNonSpace`. -/
def pPeekNonSpace (s : PState) : Item × PState :=
  let (t, s) := pNextNonSpace s
  (t, pushTok t s)

/-- `Tree.errorf` message assembly: `template: NAME:LINE: MSG`. -/
def pMsg (s : PState) (msg : List Char) : List Char :=
  ("template: ".toList) ++ s.name ++ [':'] ++ natChars s.tok0.line ++ (": ".toList) ++ msg

/-- `Tree.unexpected` message body. -/
def pUnexpectedMsg (tok : Item) (ctx : List Char) : List Char :=
  ("unexpected ".toList) ++ itemString tok ++ (" in ".toList) ++ ctx

/-- Message of the runtime panic raised by calling a method on a nil Node. -/
def nilDeref : List Char :=
  "runtime error: invalid memory address or nil pointer dereference".toList

/-- Message of the failed `.(Node)` type assertion on a nil interface. -/
def nilNodeAssert : List Char :=
  ("interface conversion: interface ".toList) ++ ['\x7b', '\x7d'] ++
    (" is nil, not parse.Node".toList)

/-- Message of the failed `.(*item)` type assertion on a nil interface. -/
def nilItemAssert : List Char :=
  ("interface conversion: interface ".toList) ++ ['\x7b', '\x7d'] ++
    (" is nil, not *parse.item".toList)

/-- Fuel-exhaustion marker (never reached at the bounds used below). -/
def fuelMsg : List Char := "model: out of fuel".toList

/-- An operator-stack entry: the sentinel pushed by `expression` (compared
by pointer identity in the source) or a pushed operator token. -/
inductive OpEntry where
  | sentinel
  | op (it : Item)
deriving DecidableEq, Repr

/-- The item value carried by a stack entry (the sentinel holds
`item{typ: itemLowestPrecOpt, val: "#"}`). -/
def OpEntry.item : OpEntry → Item
  | .sentinel => ⟨.lowestPrecOpt, 0, ['#'], 0⟩
  | .op i => i

/-- `Tree.newNumber`, modelled only as far as the claims require: plain
decimal integer/float literals and escape-free character constants
classify successfully, other shapes report an error (the Go original
performs full `strconv` integer/float/complex classification; no claim in
this development depends on it). -/
def newNumber (pos : Nat) (txt : List Char) (typ : ItemType) : Except (List Char) Node :=
  if typ = .charConstant then
    match txt with
    | [a, c, b] =>
      if a = sq ∧ b = sq ∧ c ≠ '\\' then .ok (.number pos txt)
      else .error (("malformed character constant: ".toList) ++ txt)
    | _ => .error (("malformed character constant: ".toList) ++ txt)
  else if txt ≠ [] ∧ txt.all (fun c => c.isDigit || c == '.') ∧ txt.count '.' ≤ 1 then
    .ok (.number pos txt)
  else .error (("illegal number syntax: ".toList) ++ goQuote txt)

mutual

/-- The loop of `Tree.expression`: dual-stack precedence parsing.  The
source's first comparison in the operator case tests the sentinel *item
value* against an interface holding a `*item`; the dynamic types differ,
so it is always false and has no branch here.  In the combine branch the
source only *peeks* the top operator (never popping it) and ungets the
incoming token. -/
def pExprLoop : Nat → List Char → List OpEntry → List Node → PState →
    Except PErr (Node × PState)
  | 0, _, _, _, _ => .error (.crash fuelMsg)
  | fuel + 1, ctx, opStack, ndStack, s =>
    let (tok, s) := pNextNonSpace s
    match tok.typ with
    | .closeDirective | .rightInterpolation =>
      match opStack with
      | [] => .error (.crash nilItemAssert)
      | top :: rest =>
        match top with
        | .sentinel =>
          match ndStack with
          | [] => .error (.crash nilNodeAssert)
          | x :: _ => .ok (Node.expr tok.pos .lowestPrecOpt [x], s)
        | .op topIt =>
          match rest with
          | [] => .error (.parseError (pMsg s (pUnexpectedMsg tok ctx)))
          | bottom :: _ =>
            match bottom with
            | .op _ => .error (.parseError (pMsg s (pUnexpectedMsg tok ctx)))
            | .sentinel =>
              match ndStack with
              | x :: y :: _ => .ok (Node.expr tok.pos topIt.typ [x, y], s)
              | _ => .error (.crash nilNodeAssert)
    | .bool =>
      pExprLoop fuel ctx opStack
        (Node.boolN tok.pos (tok.val == ("true".toList)) :: ndStack) s
    | .charConstant =>
      match newNumber tok.pos tok.val tok.typ with
      | .error m => .error (.parseError (pMsg s m))
      | .ok n => pExprLoop fuel ctx opStack (n :: ndStack) s
    | .number =>
      match newNumber tok.pos tok.val tok.typ with
      | .error m => .error (.parseError (pMsg s m))
      | .ok n => pExprLoop fuel ctx opStack (n :: ndStack) s
    | .identifier =>
      pExprLoop fuel ctx opStack (Node.ident tok.pos tok.val :: ndStack) s
    | .stringConstant =>
      pExprLoop fuel ctx opStack (Node.strN tok.pos tok.val :: ndStack) s
    | .add | .minus | .multiply | .divide | .less | .lessEq | .eq | .neq | .dot =>
      match opStack with
      | [] => .error (.crash nilItemAssert)
      | top :: _ =>
        if top.item.typ.precedence ≤ tok.typ.precedence then
          pExprLoop fuel ctx (OpEntry.op tok :: opStack) ndStack s
        else
          match ndStack with
          | x :: y :: ndRest =>
            pExprLoop fuel ctx opStack
              (Node.expr tok.pos top.item.typ [x, y] :: ndRest) (pushTok tok s)
          | _ => .error (.crash nilNodeAssert)
    | _ => .error (.parseError (pMsg s (pUnexpectedMsg tok ctx)))

/-- `Tree.textOrInterpolationOrDirective`.  The `</#` case reads two more
tokens and builds the End marker from the *second* one (the close
delimiter), whose value and position it carries.  A `none` result stands
for the nil Node returned by the unfinished directive dispatcher. -/
def pTOID : Nat → PState → Except PErr (Option Node × PState)
  | 0, _ => .error (.crash fuelMsg)
  | fuel + 1, s =>
    let (tok, s) := pNextNonSpace s
    match tok.typ with
    | .text => .ok (some (.textN tok.pos tok.val), s)
    | .leftInterpolation =>
      match pExprLoop fuel ("interpolation".toList) [.sentinel] [] s with
      | .error e => .error e
      | .ok (n, s) => .ok (some n, s)
    | .startDirective => pDirective fuel s
    | .endDirective =>
      let (_, s) := pNext s
      let (t2, s) := pNext s
      .ok (some (.endN t2.pos t2.val), s)
    | _ => .error (.parseError (pMsg s (pUnexpectedMsg tok ("input".toList))))

/-- `Tree.directive`: dispatches only `if` and `else`; any other directive
keyword is backed up, peeked (plus a debug print) and a nil node is
returned. -/
def pDirective : Nat → PState → Except PErr (Option Node × PState)
  | 0, _ => .error (.crash fuelMsg)
  | fuel + 1, s =>
    let (tok, s) := pNextNonSpace s
    match tok.typ with
    | .directiveIf =>
      match pIfControl fuel s with
      | .error e => .error e
      | .ok (n, s) => .ok (some n, s)
    | .directiveElse =>
      match pElseControl fuel s with
      | .error e => .error e
      | .ok (n, s) => .ok (some n, s)
    | _ =>
      let s := pushTok tok s
      let (_, s) := pPeek s
      .ok (none, s)

/-- `Tree.ifControl`. -/
def pIfControl : Nat → PState → Except PErr (Node × PState)
  | 0, _ => .error (.crash fuelMsg)
  | fuel + 1, s =>
    match pParseControl fuel true ("if".toList) s with
    | .error e => .error e
    | .ok ((p, e, c, a), s) => .ok (.ifN p e c a, s)

/-- `Tree.listControl` (present in the source but unreachable: `directive`
has no case dispatching to it). -/
def pListControl : Nat → PState → Except PErr (Node × PState)
  | 0, _ => .error (.crash fuelMsg)
  | fuel + 1, s =>
    match pParseControl fuel false ("list".toList) s with
    | .error e => .error e
    | .ok ((p, e, c, a), s) => .ok (.listN p e c a, s)

/-- `Tree.elseControl`: peeking an `if` keyword leaves it pending for the
else-if rewrite; otherwise the close delimiter is required. -/
def pElseControl : Nat → PState → Except PErr (Node × PState)
  | 0, _ => .error (.crash fuelMsg)
  | fuel + 1, s =>
    let (pk, s) := pPeekNonSpace s
    if pk.typ = .directiveIf then .ok (.elseN pk.pos, s)
    else
      let (tok, s) := pNextNonSpace s
      if tok.typ = .closeDirective then .ok (.elseN tok.pos, s)
      else .error (.parseError (pMsg s (pUnexpectedMsg tok ("else".toList))))

/-- `Tree.parseControl`: condition expression, then the primary content up
to an End/Else marker; on Else either the else-if rewrite (a single nested
if in a fresh content node) or a plain else body terminated by End. -/
def pParseControl : Nat → Bool → List Char → PState →
    Except PErr ((Nat × Node × Node × Option Node) × PState)
  | 0, _, _, _ => .error (.crash fuelMsg)
  | fuel + 1, allowElseIf, ctx, s =>
    match pExprLoop fuel ctx [.sentinel] [] s with
    | .error e => .error e
    | .ok (ex, s) =>
      match pItemContent fuel s with
      | .error e => .error e
      | .ok ((content, next), s) =>
        match next with
        | .elseN ep =>
          let (goElseif, s) :=
            if allowElseIf then
              let (pk, s) := pPeek s
              (pk.typ == ItemType.directiveIf, s)
            else (false, s)
          if goElseif then
            let (_, s) := pNext s
            match pIfControl fuel s with
            | .error e => .error e
            | .ok (ifn, s) => .ok ((nodePos ex, ex, content, some (.content ep [ifn])), s)
          else
            match pItemContent fuel s with
            | .error e => .error e
            | .ok ((elseList, next2), s) =>
              match next2 with
              | .endN _ _ => .ok ((nodePos ex, ex, content, some elseList), s)
              | _ =>
                .error (.parseError (pMsg s
                  (("expected end; found ".toList) ++ nodeString s.quoted next2)))
        | _ => .ok ((nodePos ex, ex, content, none), s)

/-- `Tree.itemContent` prologue: the content node's position comes from the
first non-space token. -/
def pItemContent : Nat → PState → Except PErr ((Node × Node) × PState)
  | 0, _ => .error (.crash fuelMsg)
  | fuel + 1, s =>
    let (pk, s) := pPeekNonSpace s
    pItemContentLoop fuel pk.pos [] s

/-- The loop of `Tree.itemContent`: units are accumulated until an
End/Else marker; end of input first raises "unexpected EOF". -/
def pItemContentLoop : Nat → Nat → List Node → PState → Except PErr ((Node × Node) × PState)
  | 0, _, _, _ => .error (.crash fuelMsg)
  | fuel + 1, cpos, acc, s =>
    let (pk, s) := pPeekNonSpace s
    if pk.typ = .eof then .error (.parseError (pMsg s ("unexpected EOF".toList)))
    else
      match pTOID fuel s with
      | .error e => .error e
      | .ok (n?, s) =>
        match n? with
        | none => .error (.crash nilDeref)
        | some n =>
          match n with
          | .endN a b => .ok ((.content cpos acc, .endN a b), s)
          | .elseN a => .ok ((.content cpos acc, .elseN a), s)
          | _ => pItemContentLoop fuel cpos (acc ++ [n]) s

/-- `Tree.parse` prologue: the root content node's position comes from the
first token. -/
def pParse : Nat → PState → Except PErr (Node × PState)
  | 0, _ => .error (.crash fuelMsg)
  | fuel + 1, s =>
    let (pk, s) := pPeek s
    pParseLoop fuel pk.pos [] s

/-- The loop of `Tree.parse`: units are appended to the root until EOF; a
stray End/Else marker at top level is "unexpected". -/
def pParseLoop : Nat → Nat → List Node → PState → Except PErr (Node × PState)
  | 0, _, _, _ => .error (.crash fuelMsg)
  | fuel + 1, rpos, acc, s =>
    let (pk, s) := pPeek s
    if pk.typ = .eof then .ok (.content rpos acc, s)
    else
      match pTOID fuel s with
      | .error e => .error e
      | .ok (n?, s) =>
        match n? with
        | none => .error (.crash nilDeref)
        | some n =>
          match n with
          | .endN a b =>
            .error (.parseError (pMsg s (("unexpected ".toList) ++ nodeString s.quoted (.endN a b))))
          | .elseN a =>
            .error (.parseError (pMsg s (("unexpected ".toList) ++ nodeString s.quoted (.elseN a))))
          | _ => pParseLoop fuel rpos (acc ++ [n]) s

end

/-- `Tree.expression` entry: sentinel pushed, stacks empty. -/
def pExpression (fuel : Nat) (ctx : List Char) (s : PState) : Except PErr (Node × PState) :=
  pExprLoop fuel ctx [.sentinel] [] s

/-- Go map lookup over the tree set. -/
def lookupTree (ts : List (List Char × TreeM)) (k : List Char) : Option TreeM :=
  match ts with
  | [] => none
  | (k', v) :: rest => if k' = k then some v else lookupTree rest k

/-- Go map insert over the tree set. -/
def insertTree (ts : List (List Char × TreeM)) (k : List Char) (v : TreeM) :
    List (List Char × TreeM) :=
  match ts with
  | [] => [(k, v)]
  | (k', v') :: rest => if k' = k then (k, v) :: rest else (k', v') :: insertTree rest k v

/-- `Tree.add`: install the tree under its name unless a non-empty tree is
already bound; two non-empty bindings raise the multiple-definition error.
A panic inside `IsEmptyTree` carries a string value, which `recover`'s
`e.(error)` assertion turns into a runtime crash. -/
def addTree (pname : List Char) (line : Nat) (treeSet : List (List Char × TreeM))
    (t : TreeM) : Except PErr (List (List Char × TreeM)) :=
  match lookupTree treeSet t.name with
  | none => .ok (insertTree treeSet t.name t)
  | some old =>
    match IsEmptyTree old.root with
    | .error m => .error (.crash m)
    | .ok true => .ok (insertTree treeSet t.name t)
    | .ok false =>
      match IsEmptyTree t.root with
      | .error m => .error (.crash m)
      | .ok true => .ok treeSet
      | .ok false =>
        .error (.parseError (("template: ".toList) ++ pname ++ [':'] ++ natChars line ++
          (": template: multiple definition of template ".toList) ++ goQuote t.name))

/-- Fuel bound for a parse. -/
def pFuel (items : List Item) : Nat := 8 * items.length + 32

/-- `Tree.Parse`: scan, parse, install into the tree set.  `parseError`
results are the errors `recover` hands back (the root having been
discarded); `crash` results are re-raised runtime panics. -/
def Parse (name : List Char) (quoted : Bool) (text : List Char)
    (treeSet : List (List Char × TreeM)) : Except PErr (TreeM × List (List Char × TreeM)) :=
  let items := lexAll text
  let s0 : PState := ⟨items, zeroItem, name, quoted⟩
  match pParse (pFuel items) s0 with
  | .error e => .error e
  | .ok (root, s) =>
    let t : TreeM := ⟨name, name, some root, text⟩
    match addTree name s.tok0.line treeSet t with
    | .error e => .error e
    | .ok ts => .ok (t, ts)

/-- Canonical reconstruction of a tree's root (empty for a discarded root). -/
def rootString (q : Bool) (t : TreeM) : List Char :=
  match t.root with
  | some n => nodeString q n
  | none => []

/-- Parse against a fresh tree set and reconstruct the root. -/
def parseToString (q : Bool) (name text : List Char) : Except PErr (List Char) :=
  match Parse name q text [] with
  | .error e => .error e
  | .ok (t, _) => .ok (rootString q t)

/-! ## Auxiliary definitions for the verification statements -/

/-- The operator kinds with a case in the expression engine's operator
branch. -/
def engineOp (t : ItemType) : Prop :=
  t = .add ∨ t = .minus ∨ t = .multiply ∨ t = .divide ∨ t = .less ∨ t = .lessEq ∨
    t = .eq ∨ t = .neq ∨ t = .dot

instance (t : ItemType) : Decidable (engineOp t) := by
  unfold engineOp; infer_instance

mutual

/-- Nodes built only from the variants `IsEmptyTree` has switch cases for
(recursively through Content children; If/List children are never visited
by the check, so they are unconstrained). -/
def wholesome : Node → Bool
  | .content _ ns => wholesomeList ns
  | .textN _ _ => true
  | .ifN _ _ _ _ => true
  | .listN _ _ _ _ => true
  | _ => false

/-- All children wholesome. -/
def wholesomeList : List Node → Bool
  | [] => true
  | n :: ns => wholesome n && wholesomeList ns

end

mutual

/-- Emptiness as the code actually computes it: Content is empty when all
children are, Text when whitespace-trimmed empty, and If/List are never
empty (their switch cases fall through to `return false`). -/
def emptySpec : Node → Bool
  | .content _ ns => emptySpecList ns
  | .textN _ t => decide (trimSpace t = [])
  | _ => false

/-- All children empty. -/
def emptySpecList : List Node → Bool
  | [] => true
  | n :: ns => emptySpec n && emptySpecList ns

end

/-- Node variants with no case in `IsEmptyTree`'s switch (the ones its
default branch panics on). -/
def badVariant : Node → Bool
  | .expr _ _ _ => true
  | .ident _ _ => true
  | .boolN _ _ => true
  | .number _ _ => true
  | .strN _ _ => true
  | .endN _ _ => true
  | .elseN _ => true
  | _ => false

/-- The scanned items of `"<#if></#if>"`. -/
def itemsIfEmpty : List Item :=
  [⟨.startDirective, 0, ("<#".toList), 1⟩, ⟨.directiveIf, 2, ("if".toList), 1⟩,
   ⟨.closeDirective, 4, (">".toList), 1⟩, ⟨.endDirective, 5, ("</#".toList), 1⟩,
   ⟨.directiveIf, 8, ("if".toList), 1⟩, ⟨.closeDirective, 10, (">".toList), 1⟩,
   ⟨.eof, 11, [], 1⟩]

/-- The scanned items of `"<#list animals as animal>c</#list>"`. -/
def itemsList : List Item :=
  [⟨.startDirective, 0, ("<#".toList), 1⟩, ⟨.directiveList, 2, ("list".toList), 1⟩,
   ⟨.space, 6, (" ".toList), 1⟩, ⟨.identifier, 7, ("animals".toList), 1⟩,
   ⟨.space, 14, (" ".toList), 1⟩, ⟨.asKeyword, 15, ("as".toList), 1⟩,
   ⟨.space, 17, (" ".toList), 1⟩, ⟨.identifier, 18, ("animal".toList), 1⟩,
   ⟨.closeDirective, 24, (">".toList), 1⟩, ⟨.text, 25, ("c".toList), 1⟩,
   ⟨.endDirective, 26, ("</#".toList), 1⟩, ⟨.directiveList, 29, ("list".toList), 1⟩,
   ⟨.closeDirective, 33, (">".toList), 1⟩, ⟨.eof, 34, [], 1⟩]

/-- The scanned items of `"<#if a == b>true content</#if>following content"`. -/
def itemsSimpleIf : List Item :=
  [⟨.startDirective, 0, ("<#".toList), 1⟩, ⟨.directiveIf, 2, ("if".toList), 1⟩,
   ⟨.space, 4, (" ".toList), 1⟩, ⟨.identifier, 5, ("a".toList), 1⟩,
   ⟨.space, 6, (" ".toList), 1⟩, ⟨.eq, 7, ("==".toList), 1⟩,
   ⟨.space, 9, (" ".toList), 1⟩, ⟨.identifier, 10, ("b".toList), 1⟩,
   ⟨.closeDirective, 11, (">".toList), 1⟩, ⟨.text, 12, ("true content".toList), 1⟩,
   ⟨.endDirective, 24, ("</#".toList), 1⟩, ⟨.directiveIf, 27, ("if".toList), 1⟩,
   ⟨.closeDirective, 29, (">".toList), 1⟩, ⟨.text, 30, ("following content".toList), 1⟩,
   ⟨.eof, 47, [], 1⟩]

/-- The scanned items of `"${1+2+3}"`. -/
def itemsNumChain : List Item :=
  [⟨.leftInterpolation, 0, leftInterpolation, 1⟩,
   ⟨.error, 2, ("bad number syntax: ".toList) ++ goQuote ("1+2".toList), 1⟩]

/-- The scanned items of `"${a+b*c}"`. -/
def itemsIdentChain : List Item :=
  [⟨.leftInterpolation, 0, leftInterpolation, 1⟩,
   ⟨.error, 2, ("bad character ".toList) ++ fmtRune (some '+'), 1⟩]

/-- The scanned items of `"</#if>"`. -/
def itemsEndIf : List Item :=
  [⟨.endDirective, 0, ("</#".toList), 1⟩, ⟨.directiveIf, 3, ("if".toList), 1⟩,
   ⟨.closeDirective, 5, (">".toList), 1⟩, ⟨.eof, 6, [], 1⟩]

/-- An expression wrapped in interpolation delimiters. -/
def interpolated (s : List Char) : List Char :=
  leftInterpolation ++ s ++ rightInterpolation

instance {ε α : Type} [DecidableEq ε] [DecidableEq α] : DecidableEq (Except ε α) := fun a b =>
  match a, b with
  | .ok x, .ok y =>
    if h : x = y then isTrue (by rw [h]) else isFalse (by intro hh; cases hh; exact h rfl)
  | .error x, .error y =>
    if h : x = y then isTrue (by rw [h]) else isFalse (by intro hh; cases hh; exact h rfl)
  | .ok _, .error _ => isFalse (by intro hh; cases hh)
  | .error _, .ok _ => isFalse (by intro hh; cases hh)

/-! ## Helper lemmas -/

theorem strIndex_eq_none (s pat : List Char) (h : ¬ pat <:+: s) : strIndex s pat = none := by
  induction s with
  | nil =>
    cases pat with
    | nil => exact absurd List.nil_infix h
    | cons a t => simp [strIndex]
  | cons c t ih =>
    unfold strIndex
    by_cases hp : pat.isPrefixOf (c :: t)
    · exact absurd (List.isPrefixOf_iff_prefix.mp hp).isInfix h
    · have ht : ¬ pat <:+: t := fun hinf => h (List.infix_cons hinf)
      simp [hp, ih ht]

/-- `lexText` from a fresh scan position when `${` occurs: jump to its first
occurrence, emit the preceding run (if non-empty) as Text, enter the
interpolation state. -/
theorem lexText_found_interp (s : List Char) (i : Nat)
    (h : strIndex s leftInterpolation = some i) :
    lexText ⟨s, 0, 0, 0, 1, 0⟩ =
      ((if 0 < i then [⟨.text, 0, s.take i, 1⟩] else []), some .interp, ⟨s, i, i, 0, 1, 0⟩) := by
  unfold lexText
  simp only [List.drop_zero]
  rw [h]
  unfold lexJump lemit slice
  by_cases hi : 0 < i
  · simp [hi]
  · have hz : i = 0 := by omega
    subst hz
    simp

/-- `lexText` when `${` is absent but `<#--` occurs. -/
theorem lexText_found_comment (s : List Char) (i : Nat)
    (h0 : strIndex s leftInterpolation = none) (h : strIndex s leftComment = some i) :
    lexText ⟨s, 0, 0, 0, 1, 0⟩ =
      ((if 0 < i then [⟨.text, 0, s.take i, 1⟩] else []), some .comment, ⟨s, i, i, 0, 1, 0⟩) := by
  unfold lexText
  simp only [List.drop_zero]
  rw [h0, h]
  unfold lexJump lemit slice
  by_cases hi : 0 < i
  · simp [hi]
  · have hz : i = 0 := by omega
    subst hz
    simp

/-- `lexText` when `${` and `<#--` are absent but `<#` occurs. -/
theorem lexText_found_start (s : List Char) (i : Nat)
    (h0 : strIndex s leftInterpolation = none) (h1 : strIndex s leftComment = none)
    (h : strIndex s startDirective = some i) :
    lexText ⟨s, 0, 0, 0, 1, 0⟩ =
      ((if 0 < i then [⟨.text, 0, s.take i, 1⟩] else []), some .directive, ⟨s, i, i, 0, 1, 0⟩) := by
  unfold lexText
  simp only [List.drop_zero]
  rw [h0, h1, h]
  unfold lexJump lemit slice
  by_cases hi : 0 < i
  · simp [hi]
  · have hz : i = 0 := by omega
    subst hz
    simp

/-- `lexText` when only `</#` occurs among the four markers. -/
theorem lexText_found_end (s : List Char) (i : Nat)
    (h0 : strIndex s leftInterpolation = none) (h1 : strIndex s leftComment = none)
    (h2 : strIndex s startDirective = none) (h : strIndex s endDirective = some i) :
    lexText ⟨s, 0, 0, 0, 1, 0⟩ =
      ((if 0 < i then [⟨.text, 0, s.take i, 1⟩] else []), some .directive, ⟨s, i, i, 0, 1, 0⟩) := by
  unfold lexText
  simp only [List.drop_zero]
  rw [h0, h1, h2, h]
  unfold lexJump lemit slice
  by_cases hi : 0 < i
  · simp [hi]
  · have hz : i = 0 := by omega
    subst hz
    simp

/-- `lexText` with no marker present: trailing Text (if non-empty), then
EOF, and the scan terminates. -/
theorem lexText_no_marker (s : List Char)
    (h0 : strIndex s leftInterpolation = none) (h1 : strIndex s leftComment = none)
    (h2 : strIndex s startDirective = none) (h3 : strIndex s endDirective = none) :
    lexText ⟨s, 0, 0, 0, 1, 0⟩ =
      ((if 0 < s.length then [⟨.text, 0, s, 1⟩] else []) ++ [⟨.eof, s.length, [], 1⟩],
        none, ⟨s, s.length, s.length, 0, 1, 0⟩) := by
  unfold lexText
  simp only [List.drop_zero]
  rw [h0, h1, h2, h3]
  unfold lemit slice
  by_cases hs : 0 < s.length
  · simp [hs]
  · have hz : s = [] := by
      cases s with
      | nil => rfl
      | cons a t => simp at hs
    subst hz
    simp

/-- The complete scan of a marker-free input. -/
theorem lexAll_no_marker (s : List Char)
    (h0 : strIndex s leftInterpolation = none) (h1 : strIndex s leftComment = none)
    (h2 : strIndex s startDirective = none) (h3 : strIndex s endDirective = none) :
    lexAll s = (if 0 < s.length then [⟨.text, 0, s, 1⟩] else []) ++ [⟨.eof, s.length, [], 1⟩] := by
  unfold lexAll
  obtain ⟨k, hk⟩ : ∃ k, lexFuel s = k + 1 := ⟨8 * s.length + 31, by unfold lexFuel; omega⟩
  rw [hk]
  rw [lexRun]
  rw [show stateStep LexState.text ⟨s, 0, 0, 0, 1, 0⟩ = lexText ⟨s, 0, 0, 0, 1, 0⟩ from rfl]
  rw [lexText_no_marker s h0 h1 h2 h3]

/-- C1, counterexample.  For the input `"<#a>${b}"`, the directive marker
`<#` occurs at offset 0, earlier than the interpolation marker at offset 4;
the claim therefore requires the text state to handle the directive marker,
but the scanner enters the interpolation state (the code tries `${` first
and jumps to it wherever it occurs), emitting `"<#a>"` inside the Text
token. -/
theorem freemarker_c1_counterexample :
    strIndex ("<#a>$\x7bb\x7d".toList) startDirective = some 0 ∧
    strIndex ("<#a>$\x7bb\x7d".toList) leftInterpolation = some 4 ∧
    lexText ⟨("<#a>$\x7bb\x7d".toList), 0, 0, 0, 1, 0⟩ =
      ([⟨.text, 0, ("<#a>".toList), 1⟩], some .interp, ⟨("<#a>$\x7bb\x7d".toList), 4, 4, 0, 1, 0⟩) ∧
    LexState.interp ≠ LexState.directive := by
  refine ⟨rfl, rfl, rfl, by decide⟩

/-- C1, amended: the text state checks the four markers in the fixed
priority order `${`, `<#--`, `<#`, `</#`, and handles the first marker in
that order that occurs anywhere in the remaining input, jumping to its
nearest occurrence, emitting the preceding run (if non-empty) as one Text
token, and entering that marker's state; with no marker present it emits
the trailing Text (if non-empty) and EOF.  In particular, when `<#` occurs
at an earlier offset than `${`, the interpolation marker is still the one
handled. -/
theorem freemarker_c1 (s : List Char) :
    (∀ i, strIndex s leftInterpolation = some i →
      lexText ⟨s, 0, 0, 0, 1, 0⟩ =
        ((if 0 < i then [⟨.text, 0, s.take i, 1⟩] else []), some .interp, ⟨s, i, i, 0, 1, 0⟩)) ∧
    (strIndex s leftInterpolation = none → ∀ i, strIndex s leftComment = some i →
      lexText ⟨s, 0, 0, 0, 1, 0⟩ =
        ((if 0 < i then [⟨.text, 0, s.take i, 1⟩] else []), some .comment, ⟨s, i, i, 0, 1, 0⟩)) ∧
    (strIndex s leftInterpolation = none → strIndex s leftComment = none →
      ∀ i, strIndex s startDirective = some i →
      lexText ⟨s, 0, 0, 0, 1, 0⟩ =
        ((if 0 < i then [⟨.text, 0, s.take i, 1⟩] else []), some .directive, ⟨s, i, i, 0, 1, 0⟩)) ∧
    (strIndex s leftInterpolation = none → strIndex s leftComment = none →
      strIndex s startDirective = none → ∀ i, strIndex s endDirective = some i →
      lexText ⟨s, 0, 0, 0, 1, 0⟩ =
        ((if 0 < i then [⟨.text, 0, s.take i, 1⟩] else []), some .directive, ⟨s, i, i, 0, 1, 0⟩)) ∧
    (strIndex s leftInterpolation = none → strIndex s leftComment = none →
      strIndex s startDirective = none → strIndex s endDirective = none →
      lexText ⟨s, 0, 0, 0, 1, 0⟩ =
        ((if 0 < s.length then [⟨.text, 0, s, 1⟩] else []) ++ [⟨.eof, s.length, [], 1⟩],
          none, ⟨s, s.length, s.length, 0, 1, 0⟩)) :=
  ⟨fun i h => lexText_found_interp s i h,
   fun h0 i h => lexText_found_comment s i h0 h,
   fun h0 h1 i h => lexText_found_start s i h0 h1 h,
   fun h0 h1 h2 i h => lexText_found_end s i h0 h1 h2 h,
   fun h0 h1 h2 h3 => lexText_no_marker s h0 h1 h2 h3⟩

/-- C1, witness: the amended theorem applied to `"x${y}"`, whose nearest
`${` occurrence is at offset 1. -/
theorem freemarker_c1_witness :
    lexText ⟨("x$\x7by\x7d".toList), 0, 0, 0, 1, 0⟩ =
      ([⟨.text, 0, ("x".toList), 1⟩], some .interp, ⟨("x$\x7by\x7d".toList), 1, 1, 0, 1, 0⟩) := by
  have h := (freemarker_c1 ("x$\x7by\x7d".toList)).1 1 rfl
  simpa using h

/-- Copying preserves the node's byte position. -/
theorem nodePos_copyNode (n : Node) : nodePos (copyNode n) = nodePos n := by
  cases n <;> simp [copyNode, nodePos]

mutual

/-- Copying preserves canonical reconstruction. -/
theorem nodeString_copyNode (q : Bool) : (n : Node) → nodeString q (copyNode n) = nodeString q n
  | .content _ ns => by
    simp only [copyNode, nodeString]
    exact nodesString_copyNodes q ns
  | .textN _ _ => rfl
  | .expr _ op ns => by
    simp only [copyNode, nodeString]
    exact exprString_copyNodes q op true ns
  | .ident _ _ => rfl
  | .boolN _ _ => rfl
  | .number _ _ => rfl
  | .strN _ _ => rfl
  | .endN _ _ => rfl
  | .elseN _ => rfl
  | .ifN _ c b a => by
    simp only [copyNode, nodeString, nodeString_copyNode q c, nodeString_copyNode q b]
  | .listN _ c b a => by
    simp only [copyNode, nodeString, nodeString_copyNode q c, nodeString_copyNode q b]

/-- Copying a child list preserves the concatenated reconstruction. -/
theorem nodesString_copyNodes (q : Bool) :
    (ns : List Node) → nodesString q (copyNodes ns) = nodesString q ns
  | [] => rfl
  | n :: ns => by
    simp only [copyNodes, nodesString, nodeString_copyNode q n, nodesString_copyNodes q ns]

/-- Copying an expression's child list preserves its rendering. -/
theorem exprString_copyNodes (q : Bool) (op : ItemType) :
    (first : Bool) → (ns : List Node) →
      exprString q op first (copyNodes ns) = exprString q op first ns
  | _, [] => rfl
  | first, .expr p o m :: ns => by
    simp only [copyNodes, copyNode, exprString, exprString_copyNodes q o true m,
      exprString_copyNodes q op false ns]
  | first, .content p l :: ns => by
    simp only [copyNodes, copyNode, exprString, nodeString, nodesString_copyNodes q l,
      exprString_copyNodes q op false ns]
  | first, .textN p t :: ns => by
    simp only [copyNodes, copyNode, exprString, exprString_copyNodes q op false ns]
  | first, .ident p v :: ns => by
    simp only [copyNodes, copyNode, exprString, exprString_copyNodes q op false ns]
  | first, .boolN p b :: ns => by
    simp only [copyNodes, copyNode, exprString, exprString_copyNodes q op false ns]
  | first, .number p t :: ns => by
    simp only [copyNodes, copyNode, exprString, exprString_copyNodes q op false ns]
  | first, .strN p t :: ns => by
    simp only [copyNodes, copyNode, exprString, exprString_copyNodes q op false ns]
  | first, .endN p i :: ns => by
    simp only [copyNodes, copyNode, exprString, exprString_copyNodes q op false ns]
  | first, .elseN p :: ns => by
    simp only [copyNodes, copyNode, exprString, exprString_copyNodes q op false ns]
  | first, .ifN p c b a :: ns => by
    simp only [copyNodes, copyNode, exprString, nodeString, nodeString_copyNode q c,
      nodeString_copyNode q b, exprString_copyNodes q op false ns]
  | first, .listN p c b a :: ns => by
    simp only [copyNodes, copyNode, exprString, nodeString, nodeString_copyNode q c,
      nodeString_copyNode q b, exprString_copyNodes q op false ns]

end

/-- C7: a copied tree reconstructs to the same string as the original, and
for every node, its copy reports the identical `ErrorContext` location
(name:line:column) and context (possibly truncated reconstruction) against
the copied tree as the original node does against the original tree.  This
is proved for all trees and nodes, hence in particular for every
successfully parsed tree and its nodes. -/
theorem freemarker_c7 (q : Bool) (t : TreeM) (n : Node) :
    rootString q (treeCopy t) = rootString q t ∧
    ErrorContext (treeCopy t) q (copyNode n) = ErrorContext t q n := by
  constructor
  · cases ht : t.root with
    | none => simp [rootString, treeCopy, copyOpt, ht]
    | some r => simp [rootString, treeCopy, copyOpt, ht, nodeString_copyNode q r]
  · unfold ErrorContext treeCopy
    simp [nodePos_copyNode, nodeString_copyNode]

mutual

/-- On nodes built from the switch-covered variants, the emptiness check
never panics and computes `emptySpec`. -/
theorem isEmptyNode_wholesome :
    (n : Node) → wholesome n = true → isEmptyNode n = .ok (emptySpec n)
  | .content _ ns, h => by
    simp only [wholesome] at h
    simp only [isEmptyNode, emptySpec, isEmptyNodes_wholesomeList ns h]
  | .textN _ t, _ => by simp only [isEmptyNode, emptySpec]
  | .ifN _ _ _ _, _ => by simp only [isEmptyNode, emptySpec]
  | .listN _ _ _ _, _ => by simp only [isEmptyNode, emptySpec]
  | .expr _ _ _, h => by simp [wholesome] at h
  | .ident _ _, h => by simp [wholesome] at h
  | .boolN _ _, h => by simp [wholesome] at h
  | .number _ _, h => by simp [wholesome] at h
  | .strN _ _, h => by simp [wholesome] at h
  | .endN _ _, h => by simp [wholesome] at h
  | .elseN _, h => by simp [wholesome] at h

/-- Child-list version of the previous lemma. -/
theorem isEmptyNodes_wholesomeList :
    (ns : List Node) → wholesomeList ns = true → isEmptyNodes ns = .ok (emptySpecList ns)
  | [], _ => rfl
  | n :: ns, h => by
    simp only [wholesomeList, Bool.and_eq_true] at h
    simp only [isEmptyNodes, emptySpecList, isEmptyNode_wholesome n h.1]
    cases hs : emptySpec n with
    | true => simp [isEmptyNodes_wholesomeList ns h.2]
    | false => simp

end

/-- Unrecognized variants make the emptiness check panic. -/
theorem isEmptyNode_badVariant (n : Node) (h : badVariant n = true) :
    ∃ m, isEmptyNode n = .error m := by
  cases n <;> simp [badVariant] at h <;> exact ⟨_, rfl⟩

/-- C9, counterexample.  An If node whose sub-content is only whitespace is
claimed to count as empty; the code returns false for every If node (its
switch case is empty and falls through to `return false`), so this node
refutes the claim's If/List recursion clause. -/
theorem freemarker_c9_counterexample :
    IsEmptyTree (some (.ifN 0 (.ident 1 ("a".toList)) (.content 2 [.textN 2 (" ".toList)]) none)) =
      .ok false ∧
    (Except.ok false : Except (List Char) Bool) ≠ .ok true := by
  refine ⟨rfl, by simp⟩

/-- C9, amended: `IsEmptyTree` is true on a nil node; on Content nodes it
recursively requires every child empty; on Text nodes it requires the
whitespace-trimmed text to be empty; If and List nodes are never empty
(their sub-content is not examined); and any other node variant causes a
fatal internal failure (a panic carrying a string), not a returned error. -/
theorem freemarker_c9 :
    (IsEmptyTree none = .ok true) ∧
    (∀ n, wholesome n = true → IsEmptyTree (some n) = .ok (emptySpec n)) ∧
    (∀ p c b a, IsEmptyTree (some (.ifN p c b a)) = .ok false) ∧
    (∀ p c b a, IsEmptyTree (some (.listN p c b a)) = .ok false) ∧
    (∀ p t, IsEmptyTree (some (.textN p t)) = .ok (decide (trimSpace t = []))) ∧
    (∀ p ns, IsEmptyTree (some (.content p ns)) = isEmptyNodes ns) ∧
    (∀ n, badVariant n = true → ∃ m, IsEmptyTree (some n) = .error m) := by
  refine ⟨rfl, fun n h => isEmptyNode_wholesome n h, fun p c b a => rfl, fun p c b a => rfl,
    fun p t => rfl, fun p ns => rfl, fun n h => isEmptyNode_badVariant n h⟩

/-- C9, witness: the amended theorem applied to a Content node with one
whitespace Text child (empty) and to an Expression node (panic). -/
theorem freemarker_c9_witness :
    IsEmptyTree (some (.content 0 [.textN 0 (" \t".toList)])) = .ok true ∧
    ∃ m, IsEmptyTree (some (.expr 0 .eq [])) = .error m := by
  constructor
  · have h := freemarker_c9.2.1 (.content 0 [.textN 0 (" \t".toList)]) (by decide)
    simpa using h
  · exact freemarker_c9.2.2.2.2.2.2 (.expr 0 .eq []) (by decide)

/-- C8: installing a parsed tree under a name.  With no binding or an
empty binding, the new tree is installed; with a non-empty binding and an
empty new tree, the binding is untouched and no error is raised; with two
non-empty trees, the hard error `multiple definition of template %q` is
raised. -/
theorem freemarker_c8 (pname : List Char) (line : Nat) (ts : List (List Char × TreeM))
    (t : TreeM) :
    (lookupTree ts t.name = none →
      addTree pname line ts t = .ok (insertTree ts t.name t)) ∧
    (∀ old, lookupTree ts t.name = some old → IsEmptyTree old.root = .ok true →
      addTree pname line ts t = .ok (insertTree ts t.name t)) ∧
    (∀ old, lookupTree ts t.name = some old → IsEmptyTree old.root = .ok false →
      IsEmptyTree t.root = .ok true → addTree pname line ts t = .ok ts) ∧
    (∀ old, lookupTree ts t.name = some old → IsEmptyTree old.root = .ok false →
      IsEmptyTree t.root = .ok false →
      ∃ msg, addTree pname line ts t = .error (.parseError msg) ∧
        ∃ u, msg = u ++ ("multiple definition of template ".toList) ++ goQuote t.name) := by
  refine ⟨fun h => by simp [addTree, h], fun old h he => by simp [addTree, h, he],
    fun old h he hn => by simp [addTree, h, he, hn],
    fun old h he hn => ?_⟩
  refine ⟨("template: ".toList) ++ pname ++ [':'] ++ natChars line ++
      (": template: multiple definition of template ".toList) ++ goQuote t.name,
    by simp [addTree, h, he, hn],
    ("template: ".toList) ++ pname ++ [':'] ++ natChars line ++ (": template: ".toList), ?_⟩
  simp [List.append_assoc]

/-- C8, witness: the third and fourth clauses at concrete trees — a
non-empty binding survives an empty redefinition, and two non-empty
definitions collide. -/
theorem freemarker_c8_witness :
    addTree ("p".toList) 1
        [(("n".toList), ⟨("n".toList), ("n".toList), some (.textN 0 ("x".toList)), ("x".toList)⟩)]
        ⟨("n".toList), ("n".toList), some (.content 0 []), []⟩ =
      .ok [(("n".toList), ⟨("n".toList), ("n".toList), some (.textN 0 ("x".toList)), ("x".toList)⟩)] ∧
    ∃ msg,
      addTree ("p".toList) 1
          [(("n".toList), ⟨("n".toList), ("n".toList), some (.textN 0 ("x".toList)), ("x".toList)⟩)]
          ⟨("n".toList), ("n".toList), some (.textN 0 ("y".toList)), ("y".toList)⟩ =
        .error (.parseError msg) ∧
      ∃ u, msg = u ++ ("multiple definition of template ".toList) ++ goQuote ("n".toList) := by
  constructor
  · exact (freemarker_c8 ("p".toList) 1 _ _).2.2.1 _ rfl rfl rfl
  · exact (freemarker_c8 ("p".toList) 1 _ _).2.2.2 _ rfl rfl rfl

/-- C2: the parse of `"<#if></#if>"` does not return an error value — it
dies with the re-raised runtime panic from the `.(Node)` type assertion on
the nil popped from the empty operand stack (the source's own test table
expects `hasError`, i.e. a returned error, for this input). -/
theorem freemarker_c2_code_behavior :
    parseToString true ("emptyDirective".toList) ("<#if></#if>".toList) =
      .error (.crash nilNodeAssert) := by
  have hlex : lexAll ("<#if></#if>".toList) = itemsIfEmpty := by
    unfold lexAll
    rw [show lexFuel ("<#if></#if>".toList) = 120 from by decide]
    decide
  unfold parseToString Parse
  rw [hlex]
  simp only []
  rw [show pFuel itemsIfEmpty = 88 from by decide]
  simp [pParse, pParseLoop, pTOID, pDirective, pIfControl, pParseControl, pItemContent,
    pItemContentLoop, pExprLoop, pElseControl, pPeek, pNext, pushTok, pNextNonSpace,
    pPeekNonSpace, nodePos, OpEntry.item, ItemType.precedence, addTree, lookupTree,
    insertTree, rootString, nodeString, nodesString, exprString, newNumber, itemsIfEmpty]

/-- C3, counterexample: parsing the documented list surface form does not
produce a List node — the directive dispatcher returns a nil node and the
top-level parse loop's `n.Type()` call dies with a nil-pointer runtime
panic, which `recover` re-raises. -/
theorem freemarker_c3_counterexample :
    parseToString true ("list".toList) ("<#list animals as animal>c</#list>".toList) =
      .error (.crash nilDeref) := by
  have hlex : lexAll ("<#list animals as animal>c</#list>".toList) = itemsList := by
    unfold lexAll
    rw [show lexFuel ("<#list animals as animal>c</#list>".toList) = 304 from by decide]
    decide
  unfold parseToString Parse
  rw [hlex]
  simp only []
  rw [show pFuel itemsList = 144 from by decide]
  simp [pParse, pParseLoop, pTOID, pDirective, pIfControl, pParseControl, pItemContent,
    pItemContentLoop, pExprLoop, pElseControl, pPeek, pNext, pushTok, pNextNonSpace,
    pPeekNonSpace, nodePos, OpEntry.item, ItemType.precedence, addTree, lookupTree,
    insertTree, rootString, nodeString, nodesString, exprString, newNumber, itemsList]

/-- C3, amended: the directive dispatcher handles only `if` and `else`; a
`list` keyword token is backed up and a nil node is returned (the
`listControl` builder is unreachable), and the whole parse of the list
surface form consequently crashes with a nil-node runtime panic instead of
producing a List node. -/
theorem freemarker_c3 :
    (∀ (f p ln : Nat) (v : List Char) (rest : List Item) (t0 : Item) (nm : List Char) (q : Bool),
      pDirective (f + 1) ⟨⟨.directiveList, p, v, ln⟩ :: rest, t0, nm, q⟩ =
        .ok (none, ⟨⟨.directiveList, p, v, ln⟩ :: rest, ⟨.directiveList, p, v, ln⟩, nm, q⟩)) ∧
    parseToString true ("list".toList) ("<#list animals as animal>c</#list>".toList) =
      .error (.crash nilDeref) := by
  constructor
  · intro f p ln v rest t0 nm q
    rw [pDirective]
    simp [pNextNonSpace, pNext, pushTok, pPeek]
  · have hlex : lexAll ("<#list animals as animal>c</#list>".toList) = itemsList := by
      unfold lexAll
      rw [show lexFuel ("<#list animals as animal>c</#list>".toList) = 304 from by decide]
      decide
    unfold parseToString Parse
    rw [hlex]
    simp only []
    rw [show pFuel itemsList = 144 from by decide]
    simp [pParse, pParseLoop, pTOID, pDirective, pIfControl, pParseControl, pItemContent,
      pItemContentLoop, pExprLoop, pElseControl, pPeek, pNext, pushTok, pNextNonSpace,
      pPeekNonSpace, nodePos, OpEntry.item, ItemType.precedence, addTree, lookupTree,
      insertTree, rootString, nodeString, nodesString, exprString, newNumber, itemsList]

/-- C4: the diagnostic-format reconstruction of the parsed simple-if
template, with the binary expression's operands in popped order (right
before left). -/
theorem freemarker_c4 :
    parseToString true ("simple if".toList)
        ("<#if a == b>true content</#if>following content".toList) =
      .ok ("<#if b==a>\"true content\"</#if>\"following content\"".toList) := by
  have hlex : lexAll ("<#if a == b>true content</#if>following content".toList) =
      itemsSimpleIf := by
    unfold lexAll
    rw [show lexFuel ("<#if a == b>true content</#if>following content".toList) = 408 from by decide]
    decide
  unfold parseToString Parse
  rw [hlex]
  simp only []
  rw [show pFuel itemsSimpleIf = 152 from by decide]
  simp [pParse, pParseLoop, pTOID, pDirective, pIfControl, pParseControl, pItemContent,
    pItemContentLoop, pExprLoop, pElseControl, pPeek, pNext, pushTok, pNextNonSpace,
    pPeekNonSpace, nodePos, OpEntry.item, ItemType.precedence, addTree, lookupTree,
    insertTree, rootString, nodeString, nodesString, exprString, newNumber,
    ItemType.typeStr, itemNameTable, goQuote, quoteChar, itemsSimpleIf]

/-- C5, counterexample: consuming the token stream of `"</#if>"`, the
parser produces an End marker carrying the close delimiter's value `">"`
(and its position), not the directive name `"if"` that the claim says it
carries. -/
theorem freemarker_c5_counterexample :
    lexAll ("</#if>".toList) = itemsEndIf ∧
    pTOID 8 ⟨itemsEndIf, zeroItem, ("t".toList), false⟩ =
      .ok (some (.endN 5 ('>' :: [])),
        ⟨[⟨.eof, 6, [], 1⟩], ⟨.closeDirective, 5, (">".toList), 1⟩, ("t".toList), false⟩) ∧
    ('>' :: []) ≠ ("if".toList) :=
  ⟨rfl, rfl, by decide⟩

/-- C5, amended: on a directive-close-open token the parser consumes the
two following tokens (the identifier and the close delimiter) and produces
an End marker whose carried string and position are the *second* consumed
token's — the close delimiter `">"` — not the directive's name. -/
theorem freemarker_c5 (f p ln : Nat) (v : List Char) (t1 t2 : Item)
    (rest : List Item) (t0 : Item) (nm : List Char) (q : Bool) :
    pTOID (f + 1) ⟨⟨.endDirective, p, v, ln⟩ :: t1 :: t2 :: rest, t0, nm, q⟩ =
      .ok (some (.endN t2.pos t2.val), ⟨rest, t2, nm, q⟩) := by
  rw [pTOID]
  simp [pNextNonSpace, pNext]

/-- One expression-engine step: an identifier token is pushed on the
operand stack. -/
theorem pExprLoop_ident (f : Nat) (ctx : List Char) (ops : List OpEntry) (nds : List Node)
    (p ln : Nat) (v : List Char) (rest : List Item) (t0 : Item) (nm : List Char) (q : Bool) :
    pExprLoop (f + 1) ctx ops nds ⟨⟨.identifier, p, v, ln⟩ :: rest, t0, nm, q⟩ =
      pExprLoop f ctx ops (Node.ident p v :: nds) ⟨rest, ⟨.identifier, p, v, ln⟩, nm, q⟩ := by
  rw [pExprLoop]
  simp [pNextNonSpace, pNext]

/-- One expression-engine step: an operator token whose precedence is at
least the stack top's is pushed on the operator stack. -/
theorem pExprLoop_op (f : Nat) (ctx : List Char) (top : OpEntry) (ops : List OpEntry)
    (nds : List Node) (op : ItemType) (p ln : Nat) (v : List Char) (rest : List Item)
    (t0 : Item) (nm : List Char) (q : Bool) (hop : engineOp op)
    (hcond : top.item.typ.precedence ≤ op.precedence) :
    pExprLoop (f + 1) ctx (top :: ops) nds ⟨⟨op, p, v, ln⟩ :: rest, t0, nm, q⟩ =
      pExprLoop f ctx (.op ⟨op, p, v, ln⟩ :: top :: ops) nds ⟨rest, ⟨op, p, v, ln⟩, nm, q⟩ := by
  rcases hop with rfl | rfl | rfl | rfl | rfl | rfl | rfl | rfl | rfl <;>
    · rw [pExprLoop]
      simp [pNextNonSpace, pNext, hcond]

/-- One expression-engine step: a closing token with two operators still
stacked above the sentinel pops both, finds the second is not the
sentinel, and raises the "unexpected" parse error. -/
theorem pExprLoop_close_stacked (f : Nat) (ctx : List Char) (i1 i2 : Item)
    (ops : List OpEntry) (nds : List Node) (ct : ItemType)
    (p ln : Nat) (v : List Char) (rest : List Item) (t0 : Item) (nm : List Char) (q : Bool)
    (hct : ct = .closeDirective ∨ ct = .rightInterpolation) :
    pExprLoop (f + 1) ctx (.op i1 :: .op i2 :: ops) nds ⟨⟨ct, p, v, ln⟩ :: rest, t0, nm, q⟩ =
      .error (.parseError (pMsg ⟨rest, ⟨ct, p, v, ln⟩, nm, q⟩ (pUnexpectedMsg ⟨ct, p, v, ln⟩ ctx))) := by
  rcases hct with rfl | rfl <;>
    · rw [pExprLoop]
      simp [pNextNonSpace, pNext]

/-- C10: when the expression engine receives two operator tokens with the
second's precedence at least the first's, both are pushed and the closing
token finds a non-sentinel below the top operator, raising an "unexpected"
parse error; and the claim's two concrete examples, `${1+2+3}` and
`${a+b*c}`, also make Parse return an error carrying "unexpected" rather
than a tree (for these the scanner already rejects `+`/`*`, and the error
token surfaces through the engine's default case as the same "unexpected"
parse error). -/
theorem freemarker_c10 :
    (∀ (f : Nat) (ctx nm va vb vc v1 v2 : List Char) (q : Bool)
        (pa p1 pb p2 pc pz la l1 lb l2 lc lz : Nat) (op1 op2 : ItemType) (t0 : Item),
      engineOp op1 → engineOp op2 → op1.precedence ≤ op2.precedence →
      ∃ msg,
        pExpression (f + 6) ctx
            ⟨[⟨.identifier, pa, va, la⟩, ⟨op1, p1, v1, l1⟩, ⟨.identifier, pb, vb, lb⟩,
              ⟨op2, p2, v2, l2⟩, ⟨.identifier, pc, vc, lc⟩,
              ⟨.rightInterpolation, pz, rightInterpolation, lz⟩], t0, nm, q⟩ =
          .error (.parseError msg) ∧
        ∃ u w, msg = u ++ ("unexpected ".toList) ++ w) ∧
    (∃ m, parseToString true ("t".toList) (interpolated ("1+2+3".toList)) =
        .error (.parseError m) ∧
      ∃ u w, m = u ++ ("unexpected ".toList) ++ w) ∧
    (∃ m, parseToString true ("t".toList) (interpolated ("a+b*c".toList)) =
        .error (.parseError m) ∧
      ∃ u w, m = u ++ ("unexpected ".toList) ++ w) := by
  refine ⟨?_, ?_, ?_⟩
  · intro f ctx nm va vb vc v1 v2 q pa p1 pb p2 pc pz la l1 lb l2 lc lz op1 op2 t0 hop1 hop2 hp
    unfold pExpression
    have e6 : f + 6 = (f + 5) + 1 := rfl
    rw [e6, pExprLoop_ident]
    have e5 : f + 5 = (f + 4) + 1 := rfl
    rw [e5, pExprLoop_op _ _ .sentinel _ _ _ _ _ _ _ _ _ _ hop1 (Nat.zero_le _)]
    have e4 : f + 4 = (f + 3) + 1 := rfl
    rw [e4, pExprLoop_ident]
    have e3 : f + 3 = (f + 2) + 1 := rfl
    rw [e3, pExprLoop_op _ _ (.op ⟨op1, p1, v1, l1⟩) _ _ _ _ _ _ _ _ _ _ hop2 hp]
    have e2 : f + 2 = (f + 1) + 1 := rfl
    rw [e2, pExprLoop_ident]
    rw [pExprLoop_close_stacked _ _ _ _ _ _ _ _ _ _ _ _ _ _ (Or.inr rfl)]
    refine ⟨_, rfl,
      ("template: ".toList) ++ nm ++ [':'] ++ natChars lz ++ (": ".toList),
      itemString ⟨.rightInterpolation, pz, rightInterpolation, lz⟩ ++ (" in ".toList) ++ ctx, ?_⟩
    simp [pMsg, pUnexpectedMsg, List.append_assoc]
  · have hlex : lexAll (interpolated ("1+2+3".toList)) = itemsNumChain := by
      unfold lexAll
      rw [show lexFuel (interpolated ("1+2+3".toList)) = 96 from by decide]
      decide
    refine ⟨("template: t:1: unexpected bad number syntax: \"1+2\" in interpolation".toList),
      ?_, ("template: t:1: ".toList),
      ("bad number syntax: \"1+2\" in interpolation".toList), by decide⟩
    unfold parseToString Parse
    rw [hlex]
    simp only []
    rw [show pFuel itemsNumChain = 48 from by decide]
    simp [pParse, pParseLoop, pTOID, pExprLoop, pPeek, pNext, pushTok, pNextNonSpace,
      pMsg, pUnexpectedMsg, itemString, ItemType.code, goQuote, quoteChar, natChars,
      itemsNumChain]
    decide
  · have hlex : lexAll (interpolated ("a+b*c".toList)) = itemsIdentChain := by
      unfold lexAll
      rw [show lexFuel (interpolated ("a+b*c".toList)) = 96 from by decide]
      decide
    refine ⟨("template: t:1: unexpected bad character U+002B ".toList) ++ [sq, '+', sq] ++
        (" in interpolation".toList),
      ?_, ("template: t:1: ".toList),
      ("bad character U+002B ".toList) ++ [sq, '+', sq] ++ (" in interpolation".toList),
      by decide⟩
    unfold parseToString Parse
    rw [hlex]
    simp only []
    rw [show pFuel itemsIdentChain = 48 from by decide]
    simp [pParse, pParseLoop, pTOID, pExprLoop, pPeek, pNext, pushTok, pNextNonSpace,
      pMsg, pUnexpectedMsg, itemString, ItemType.code, fmtRune, hexUpper, pad4, natChars,
      itemsIdentChain]
    decide

/-- Parsing the token stream of a pure-text input: the root is a Content
node holding one Text node. -/
theorem pParse_text_eof (f p ln pe lne : Nat) (txt nm : List Char) (q : Bool) :
    pParse (f + 3) ⟨[⟨.text, p, txt, ln⟩, ⟨.eof, pe, [], lne⟩], zeroItem, nm, q⟩ =
      .ok (.content p [.textN p txt], ⟨[⟨.eof, pe, [], lne⟩], ⟨.eof, pe, [], lne⟩, nm, q⟩) := by
  have e3 : f + 3 = f + 2 + 1 := rfl
  have e2 : f + 2 = f + 1 + 1 := rfl
  rw [e3, e2]
  simp [pParse, pParseLoop, pTOID, pPeek, pNext, pushTok, pNextNonSpace, pPeekNonSpace]

/-- C6: every input containing none of the four markers parses
successfully, and the root Content node reconstructs (under the default
text format) to the input itself; whitespace-only and empty inputs
round-trip unchanged. -/
theorem freemarker_c6 (nm s : List Char)
    (h1 : ¬ leftInterpolation <:+: s) (h2 : ¬ leftComment <:+: s)
    (h3 : ¬ startDirective <:+: s) (h4 : ¬ endDirective <:+: s) :
    parseToString false nm s = .ok s := by
  rcases Nat.eq_zero_or_pos s.length with hz | hpos
  · have hnil : s = [] := List.eq_nil_of_length_eq_zero hz
    subst hnil
    rfl
  · have hlex : lexAll s = [⟨.text, 0, s, 1⟩, ⟨.eof, s.length, [], 1⟩] := by
      rw [lexAll_no_marker s (strIndex_eq_none s _ h1) (strIndex_eq_none s _ h2)
        (strIndex_eq_none s _ h3) (strIndex_eq_none s _ h4)]
      simp [hpos]
    unfold parseToString Parse
    rw [hlex]
    simp only []
    rw [show pFuel [(⟨.text, 0, s, 1⟩ : Item), ⟨.eof, s.length, [], 1⟩] = 45 + 3 from by
      simp [pFuel]]
    rw [pParse_text_eof]
    simp [addTree, lookupTree, insertTree, rootString, nodeString, nodesString]

/-- C6, witness: the round-trip theorem at a whitespace-only input and at
a plain-text input. -/
theorem freemarker_c6_witness :
    parseToString false ("t".toList) (" \t\n".toList) = .ok (" \t\n".toList) ∧
    parseToString false ("t".toList) ("some text".toList) = .ok ("some text".toList) :=
  ⟨freemarker_c6 _ _ (by decide) (by decide) (by decide) (by decide),
   freemarker_c6 _ _ (by decide) (by decide) (by decide) (by decide)⟩

/-- C10, witness: the engine conjunct at two `==` operators (equal
precedences) acting on identifiers. -/
theorem freemarker_c10_witness :
    ∃ msg,
      pExpression 6 ("interpolation".toList)
          ⟨[⟨.identifier, 0, ("a".toList), 1⟩, ⟨.eq, 1, ("==".toList), 1⟩,
            ⟨.identifier, 3, ("b".toList), 1⟩, ⟨.eq, 4, ("==".toList), 1⟩,
            ⟨.identifier, 6, ("c".toList), 1⟩, ⟨.rightInterpolation, 7, rightInterpolation, 1⟩],
            zeroItem, ("t".toList), true⟩ = .error (.parseError msg) ∧
      ∃ u w, msg = u ++ ("unexpected ".toList) ++ w :=
  freemarker_c10.1 0 ("interpolation".toList) ("t".toList) ("a".toList) ("b".toList)
    ("c".toList) ("==".toList) ("==".toList) true 0 1 3 4 6 7 1 1 1 1 1 1 .eq .eq zeroItem
    (by decide) (by decide) (by decide)

end FM
